import Mathlib

/-!
Verification of the A2 relay server (Python sources under `src/`).

The broker sits between one Producer ("Pi client"), one Worker ("WSL
processor") and many Viewers ("browser clients").  This file gives a
shallow embedding of the routing, decoding and state-handling code:

* bytes are `Nat` values `< 256`, byte strings are `List Nat`;
* IEEE-754 f32 fields (`timestamp`, `depth_scale`) are carried through the
  Python code without any arithmetic, so they are modelled by their 32-bit
  little-endian bit patterns (a `Nat < 2^32`);
* the `asyncio.Queue(maxsize=5)` has no consumer anywhere in the program,
  so `await asyncio.wait_for(queue.put x, timeout=0.1)` succeeds exactly
  when the queue currently holds fewer than 5 entries and otherwise times
  out after the 100 ms deadline; admission is therefore modelled as the
  deterministic test `length < 5`;
* wall-clock values produced by `time.time()` are opaque rationals fed in
  as parameters.
-/

/-! ## Bytes and little-endian 32-bit fields -/

/-- Little-endian read of four bytes as a `u32`
(`struct.unpack` with format `<I`, and `int.from_bytes(_, 'little')`). -/
def leU32 (b0 b1 b2 b3 : Nat) : Nat :=
  b0 + b1 * 256 + b2 * 65536 + b3 * 16777216

/-- Little-endian encoding of a `u32` into four bytes
(`struct.pack('<I', n)` and `n.to_bytes(4, 'little')`). -/
def u32le (n : Nat) : List Nat :=
  [n % 256, n / 256 % 256, n / 65536 % 256, n / 16777216 % 256]

theorem leU32_u32le (n : Nat) (h : n < 4294967296) :
    leU32 (n % 256) (n / 256 % 256) (n / 65536 % 256) (n / 16777216 % 256) = n := by
  unfold leU32
  omega

theorem u32le_length (n : Nat) : (u32le n).length = 4 := rfl

theorem u32le_bytes_lt (n : Nat) : ∀ x ∈ u32le n, x < 256 := by
  intro x hx
  simp [u32le] at hx
  rcases hx with h | h | h | h <;> omega

/-! ## Base64 (Python `base64.b64encode` / standard decoding)

The server re-encodes binary color/depth payloads with `base64.b64encode`
before fanning frames out to viewers as JSON text.  Characters are their
ASCII codes; `61` is the pad character `=`. -/

/-- ASCII code of the base64 alphabet character for a 6-bit value. -/
def b64char (v : Nat) : Nat :=
  if v < 26 then 65 + v
  else if v < 52 then 71 + v
  else if v < 62 then v - 4
  else if v = 62 then 43
  else 47

/-- Inverse of the base64 alphabet: 6-bit value of an ASCII code. -/
def b64val (c : Nat) : Option Nat :=
  if 65 ≤ c ∧ c ≤ 90 then some (c - 65)
  else if 97 ≤ c ∧ c ≤ 122 then some (c - 71)
  else if 48 ≤ c ∧ c ≤ 57 then some (c + 4)
  else if c = 43 then some 62
  else if c = 47 then some 63
  else none

theorem b64val_b64char : ∀ v : Nat, v < 64 → b64val (b64char v) = some v := by
  decide

theorem b64char_ne_pad : ∀ v : Nat, v < 64 → b64char v ≠ 61 := by
  decide

/-- RFC 4648 base64 encoding of a byte string, as `base64.b64encode`
produces it (output is the ASCII codes of the encoded text). -/
def base64Encode : List Nat → List Nat
  | [] => []
  | [a] => [b64char (a / 4), b64char (a % 4 * 16), 61, 61]
  | [a, b] => [b64char (a / 4), b64char (a % 4 * 16 + b / 16), b64char (b % 16 * 4), 61]
  | a :: b :: c :: rest =>
      b64char (a / 4) :: b64char (a % 4 * 16 + b / 16) ::
      b64char (b % 16 * 4 + c / 64) :: b64char (c % 64) :: base64Encode rest

/-- Standard base64 decoding; `none` on any malformed input. -/
def base64Decode : List Nat → Option (List Nat)
  | [] => some []
  | c1 :: c2 :: c3 :: c4 :: rest =>
      (b64val c1).bind fun v1 =>
      (b64val c2).bind fun v2 =>
      if c3 = 61 then
        if c4 = 61 ∧ rest = [] then some [v1 * 4 + v2 / 16] else none
      else
        (b64val c3).bind fun v3 =>
        if c4 = 61 then
          if rest = [] then some [v1 * 4 + v2 / 16, v2 % 16 * 16 + v3 / 4] else none
        else
          (b64val c4).bind fun v4 =>
          (base64Decode rest).map fun tl =>
            (v1 * 4 + v2 / 16) :: (v2 % 16 * 16 + v3 / 4) :: (v3 % 4 * 64 + v4) :: tl
  | _ => none

theorem base64_roundtrip :
    ∀ bs : List Nat, (∀ x ∈ bs, x < 256) →
      base64Decode (base64Encode bs) = some bs := by
  intro bs
  induction bs using base64Encode.induct with
  | case1 =>
      intro _
      simp [base64Encode, base64Decode]
  | case2 a =>
      intro h
      have ha : a < 256 := h a (by simp)
      have e1 : a / 4 * 4 + a % 4 * 16 / 16 = a := by omega
      simp only [base64Encode, base64Decode]
      rw [b64val_b64char _ (by omega), b64val_b64char _ (by omega)]
      simp
      omega
  | case3 a b =>
      intro h
      have ha : a < 256 := h a (by simp)
      have hb : b < 256 := h b (by simp)
      have hne : b64char (b % 16 * 4) ≠ 61 := b64char_ne_pad _ (by omega)
      have e1 : a / 4 * 4 + (a % 4 * 16 + b / 16) / 16 = a := by omega
      have e2 : (a % 4 * 16 + b / 16) % 16 * 16 + b % 16 * 4 / 4 = b := by omega
      simp only [base64Encode, base64Decode]
      rw [b64val_b64char _ (by omega), b64val_b64char _ (by omega),
        b64val_b64char _ (by omega)]
      simp [hne]
      omega
  | case4 a b c rest ih =>
      intro h
      have ha : a < 256 := h a (by simp)
      have hb : b < 256 := h b (by simp)
      have hc : c < 256 := h c (by simp)
      have hrest : ∀ x ∈ rest, x < 256 := by
        intro x hx; exact h x (by simp [hx])
      have hne3 : b64char (b % 16 * 4 + c / 64) ≠ 61 := b64char_ne_pad _ (by omega)
      have hne4 : b64char (c % 64) ≠ 61 := b64char_ne_pad _ (by omega)
      have e1 : a / 4 * 4 + (a % 4 * 16 + b / 16) / 16 = a := by omega
      have e2 : (a % 4 * 16 + b / 16) % 16 * 16 + (b % 16 * 4 + c / 64) / 4 = b := by omega
      have e3 : (b % 16 * 4 + c / 64) % 4 * 64 + c % 64 = c := by omega
      simp only [base64Encode, base64Decode]
      rw [b64val_b64char _ (by omega), b64val_b64char _ (by omega),
        b64val_b64char _ (by omega), b64val_b64char _ (by omega)]
      rw [ih hrest]
      simp [hne3, hne4]
      omega

/-! ## Binary frame decoding (`handle_pi_message`, binary branch,
`src/server/message_handler.py`)

The code unpacks a 10-byte header `'<If??'` (`frame_id` u32 at offset 0,
`timestamp` f32 at offset 4, `has_color` u8 at offset 8, `has_depth` u8 at
offset 9, all little-endian), then reads the optional color section
(`color_length` u32 followed by that many bytes) and the optional depth
section (`depth_length` u32, the depth bytes, then `depth_scale` f32).
Every bounds check `pos + k > len(message)` that fails logs an error and
returns, dropping the message.  Color and depth payloads are stored
base64-encoded (`base64.b64encode(...).decode()`).  Bytes remaining after
the last section are ignored, exactly as in the code. -/

/-- Read a little-endian `u32`, failing when fewer than four bytes remain
(the code's `pos + 4 > len(message)` guard plus `struct.unpack('<I', ...)`). -/
def readU32 : List Nat → Option (Nat × List Nat)
  | b0 :: b1 :: b2 :: b3 :: rest => some (leU32 b0 b1 b2 b3, rest)
  | _ => none

/-- Read `n` raw bytes, failing when fewer remain
(the code's `pos + length > len(message)` guard plus slicing). -/
def readBytes (n : Nat) (l : List Nat) : Option (List Nat × List Nat) :=
  if n ≤ l.length then some (l.take n, l.drop n) else none

/-- Bit pattern of the f32 literal `0.001`, the code's default `depth_scale`. -/
def f32bitsDefaultDepthScale : Nat := 981668463

/-- The variables the binary branch has computed when it reaches the
forwarding code: `frame_id`, `timestamp`, the two header flags, the
base64-encoded payloads (`color_data` / `depth_data`, `None` when the
corresponding flag is clear) and `depth_scale`. -/
structure DecodedFrame where
  frame_id : Nat
  tsBits : Nat
  has_color : Bool
  has_depth : Bool
  color_data : Option (List Nat)
  depth_data : Option (List Nat)
  depth_scale_bits : Nat
  deriving Repr, DecidableEq

/-- Decoder of the typed binary frame format.  The code checks
`len(message) < header_size` once and then indexes at fixed offsets; the
sequential reads here accept exactly the same messages and compute the
same fields, because each read fails precisely when the corresponding
slice would run past the end. -/
def parsePiBinary (msg : List Nat) : Option DecodedFrame :=
  (readU32 msg).bind fun fidRest =>
  (readU32 fidRest.2).bind fun tsRest =>
  match tsRest.2 with
  | hc :: hd :: rest =>
      (if hc != 0 then
         (readU32 rest).bind fun clenRest =>
         (readBytes clenRest.1 clenRest.2).map fun colorRest =>
           (some colorRest.1, colorRest.2)
       else some (none, rest)).bind fun colorRem =>
      (if hd != 0 then
         (readU32 colorRem.2).bind fun dlenRest =>
         (readBytes dlenRest.1 dlenRest.2).bind fun depthRest =>
         (readU32 depthRest.2).map fun dsRest => (some depthRest.1, dsRest.1)
       else some (none, f32bitsDefaultDepthScale)).map fun depthRes =>
      { frame_id := fidRest.1, tsBits := tsRest.1,
        has_color := hc != 0, has_depth := hd != 0,
        color_data := colorRem.1.map base64Encode,
        depth_data := depthRes.1.map base64Encode,
        depth_scale_bits := depthRes.2 }
  | _ => none

/-- A well-formed producer frame with `has_color = 1`, laid out exactly as
the wire format prescribes (and as `parsePiBinary` consumes it). -/
def encodeBinaryFrame (fid ts : Nat) (hasDepth : Bool)
    (color depth : List Nat) (ds : Nat) : List Nat :=
  u32le fid ++ (u32le ts ++ ([1, if hasDepth then 1 else 0] ++
    (u32le color.length ++ (color ++
      (if hasDepth then u32le depth.length ++ (depth ++ u32le ds) else [])))))

theorem readU32_u32le (n : Nat) (rest : List Nat) (h : n < 4294967296) :
    readU32 (u32le n ++ rest) = some (n, rest) := by
  simp only [u32le, List.cons_append, List.nil_append, readU32]
  rw [leU32_u32le n h]

theorem readBytes_append (l rest : List Nat) :
    readBytes l.length (l ++ rest) = some (l, rest) := by
  simp [readBytes]

theorem parsePiBinary_encode (fid ts : Nat) (hasDepth : Bool)
    (color depth : List Nat) (ds : Nat)
    (hfid : fid < 4294967296) (hts : ts < 4294967296)
    (hclen : color.length < 4294967296) (hdlen : depth.length < 4294967296)
    (hds : ds < 4294967296) :
    parsePiBinary (encodeBinaryFrame fid ts hasDepth color depth ds) =
      some { frame_id := fid, tsBits := ts, has_color := true,
             has_depth := hasDepth,
             color_data := some (base64Encode color),
             depth_data := if hasDepth then some (base64Encode depth) else none,
             depth_scale_bits := if hasDepth then ds else f32bitsDefaultDepthScale } := by
  unfold encodeBinaryFrame parsePiBinary
  rw [readU32_u32le _ _ hfid]
  simp only [Option.some_bind]
  rw [readU32_u32le _ _ hts]
  simp only [Option.some_bind, List.cons_append, List.nil_append]
  cases hasDepth with
  | false =>
      simp only [show ((1 : Nat) != 0) = true from rfl,
        show ((0 : Nat) != 0) = false from rfl, ite_true, ite_false,
        Bool.false_eq_true]
      rw [readU32_u32le _ _ hclen, Option.some_bind]
      rw [readBytes_append]
      simp
  | true =>
      simp only [show ((1 : Nat) != 0) = true from rfl, ite_true]
      rw [readU32_u32le _ _ hclen, Option.some_bind]
      rw [readBytes_append]
      simp only [Option.map_some', Option.some_bind]
      rw [readU32_u32le _ _ hdlen, Option.some_bind]
      rw [readBytes_append]
      simp only [Option.some_bind]
      rw [show u32le ds = u32le ds ++ ([] : List Nat) from (List.append_nil _).symm,
        readU32_u32le _ _ hds]
      simp

theorem readU32_eq_none (l : List Nat) (h : l.length < 4) : readU32 l = none := by
  rcases l with _ | ⟨a, _ | ⟨b, _ | ⟨c, _ | ⟨d, t⟩⟩⟩⟩
  · rfl
  · rfl
  · rfl
  · rfl
  · simp at h; omega

theorem readBytes_eq_none (n : Nat) (l : List Nat) (h : l.length < n) :
    readBytes n l = none := by
  unfold readBytes
  rw [if_neg]
  omega

theorem take_append_long (l r : List Nat) (n : Nat) (h : l.length ≤ n) :
    (l ++ r).take n = l ++ r.take (n - l.length) := by
  induction l generalizing n with
  | nil => simp
  | cons a t ih =>
      cases n with
      | zero => simp at h
      | succ m =>
          simp only [List.cons_append, List.take_succ_cons, List.length_cons,
            Nat.add_sub_add_right]
          rw [ih m (by simp at h; omega)]

/-- Decode failure on every strict truncation of a well-formed
`has_color = 1` binary frame: whether the cut falls inside the base
header, the `color_length` field, the color bytes, the `depth_length`
field, the depth bytes or the trailing `depth_scale`, the parser rejects
the message. -/
theorem parsePiBinary_truncated (fid ts : Nat) (hasDepth : Bool)
    (color depth : List Nat) (ds : Nat) (k : Nat)
    (hfid : fid < 4294967296) (hts : ts < 4294967296)
    (hclen : color.length < 4294967296) (hdlen : depth.length < 4294967296)
    (hk : k < (encodeBinaryFrame fid ts hasDepth color depth ds).length) :
    parsePiBinary ((encodeBinaryFrame fid ts hasDepth color depth ds).take k) = none := by
  have hElen : (encodeBinaryFrame fid ts hasDepth color depth ds).length =
      14 + color.length + (if hasDepth then 8 + depth.length else 0) := by
    cases hasDepth <;> simp [encodeBinaryFrame, u32le] <;> omega
  by_cases h4 : k < 4
  · unfold parsePiBinary
    rw [readU32_eq_none]
    · rfl
    · rw [List.length_take]
      omega
  · unfold encodeBinaryFrame at hk ⊢
    rw [take_append_long _ _ _ (by rw [u32le_length]; omega), u32le_length]
    unfold parsePiBinary
    rw [readU32_u32le _ _ hfid]
    simp only [Option.some_bind]
    by_cases h8 : k < 8
    · rw [readU32_eq_none]
      · rfl
      · rw [List.length_take]
        simp only [List.length_append, List.length_cons, u32le_length]
        omega
    · rw [take_append_long _ _ _ (by rw [u32le_length]; omega), u32le_length]
      rw [readU32_u32le _ _ hts]
      simp only [Option.some_bind]
      by_cases h10 : k < 10
      · have hk44 : k - 4 - 4 < 2 := by omega
        interval_cases hkk : (k - 4 - 4)
        · simp only [List.take_zero]
        · simp only [List.cons_append, List.take_succ_cons, List.take_zero]
      · rw [take_append_long _ _ _ (by simp; omega)]
        simp only [List.length_cons, List.length_nil, List.cons_append, List.nil_append]
        simp only [show ((1 : Nat) != 0) = true from rfl, ite_true]
        by_cases h14 : k < 14
        · rw [readU32_eq_none]
          · simp
          · rw [List.length_take]
            simp only [List.length_append, u32le_length]
            omega
        · rw [take_append_long _ _ _ (by rw [u32le_length]; omega), u32le_length]
          rw [readU32_u32le _ _ hclen]
          simp only [Option.some_bind]
          by_cases hcolor : k - 4 - 4 - 2 - 4 < color.length
          · rw [readBytes_eq_none]
            · simp
            · rw [List.length_take]
              cases hasDepth <;> simp [u32le] <;> omega
          · cases hasDepth with
            | false =>
                exfalso
                simp [u32le] at hk
                omega
            | true =>
                rw [take_append_long _ _ _ (by omega)]
                rw [readBytes_append]
                simp only [Option.map_some', Option.some_bind,
                  show ((1 : Nat) != 0) = true from rfl, ite_true]
                simp [u32le] at hk
                by_cases hd4 : k - 4 - 4 - 2 - 4 - color.length < 4
                · rw [readU32_eq_none]
                  · simp
                  · rw [List.length_take]
                    simp [u32le]
                    omega
                · rw [take_append_long _ _ _ (by rw [u32le_length]; omega), u32le_length]
                  rw [readU32_u32le _ _ hdlen]
                  simp only [Option.some_bind]
                  by_cases hdep : k - 4 - 4 - 2 - 4 - color.length - 4 < depth.length
                  · rw [readBytes_eq_none]
                    · simp
                    · rw [List.length_take]
                      simp [u32le]
                      omega
                  · rw [take_append_long _ _ _ (by omega)]
                    rw [readBytes_append]
                    simp only [Option.some_bind]
                    rw [readU32_eq_none]
                    · simp
                    · rw [List.length_take, u32le_length]
                      omega

/-! ## Frame pipeline admission (`frame_queue = asyncio.Queue(maxsize=5)`)

`server.py` creates the queue with `maxsize=5` and no task anywhere calls
`frame_queue.get`, so a `put` wrapped in `asyncio.wait_for(..., timeout=0.1)`
returns immediately when fewer than 5 entries are queued and otherwise
raises `asyncio.TimeoutError` after the 100 ms deadline, which the handler
catches with a warning ("Processing queue full, skipping frame"). -/

/-- `asyncio.Queue(maxsize=...)` capacity used by `server.py`. -/
def frameQueueMaxsize : Nat := 5

/-- The `timeout=0.1` passed to `asyncio.wait_for`, in milliseconds. -/
def admissionTimeoutMs : Nat := 100

/-- A `timestamp` value flowing through the server: either the bit pattern
of an f32 decoded from wire bytes, or a float taken from JSON /
`time.time()` (modelled as an exact rational). -/
inductive TsVal where
  | f32bits (n : Nat)
  | clock (q : ℚ)
  deriving Repr, DecidableEq

/-- A dict placed on `frame_queue` (binary path stores `frame_id`,
`timestamp`, `image`; the JSON path adds `camera_info`). -/
structure QueueEntry where
  frame_id : Nat
  timestamp : TsVal
  image : Option (List Nat)
  camera_info : Option (List Nat)
  deriving Repr, DecidableEq

/-! ## `handle_pi_message`, binary branch (`src/server/message_handler.py`) -/

/-- The `frame_to_process` message sent to the WSL processor by the binary
branch (`image`/`depth_data` are the base64 strings, possibly `None`). -/
structure WorkerFrameB where
  frame_id : Nat
  tsBits : Nat
  image : Option (List Nat)
  depth_data : Option (List Nat)
  depth_scale_bits : Nat
  deriving Repr, DecidableEq

/-- The text `frame` message fanned out to browser clients by the binary
branch.  `depth_data`/`depth_scale` are only present when `has_depth` was
set, mirroring the conditional `frame_message["depth_data"] = ...`. -/
structure FrameMsgB where
  frame_id : Nat
  tsBits : Nat
  image : Option (List Nat)
  processed : Bool
  binary_received : Bool
  depth_data : Option (List Nat)
  depth_scale_bits : Option Nat
  deriving Repr, DecidableEq

/-- Everything `handle_pi_message` does on a binary message: the queue
afterwards, the optional send to the Worker, the optional fan-out message
for viewers, whether the admission timed out (warning logged), and whether
the handler closed the Producer session (it never does). -/
structure PiBinaryResult where
  queue : List QueueEntry
  toWorker : Option WorkerFrameB
  browserMsg : Option FrameMsgB
  timedOut : Bool
  closedSession : Bool
  deriving Repr, DecidableEq

def handlePiBinary (workerPresent : Bool) (queue : List QueueEntry)
    (msg : List Nat) : PiBinaryResult :=
  match parsePiBinary msg with
  | none =>
      { queue := queue, toWorker := none, browserMsg := none,
        timedOut := false, closedSession := false }
  | some f =>
      let admitted := workerPresent && decide (queue.length < frameQueueMaxsize)
      { queue :=
          if admitted then
            queue ++ [{ frame_id := f.frame_id, timestamp := .f32bits f.tsBits,
                        image := f.color_data, camera_info := none }]
          else queue
        toWorker :=
          if admitted then
            some { frame_id := f.frame_id, tsBits := f.tsBits,
                   image := f.color_data, depth_data := f.depth_data,
                   depth_scale_bits := f.depth_scale_bits }
          else none
        browserMsg :=
          some { frame_id := f.frame_id, tsBits := f.tsBits,
                 image := f.color_data, processed := false,
                 binary_received := true,
                 depth_data := if f.has_depth then f.depth_data else none,
                 depth_scale_bits :=
                   if f.has_depth then some f.depth_scale_bits else none }
        timedOut := workerPresent && !decide (queue.length < frameQueueMaxsize)
        closedSession := false }

/-! ## Legacy binary handler (`handle_pi_message` in `src/utils.py`)

This alternate handler (also present in
`src/server_binary_frame_implementation.py`) reads an 8-byte header
(`frame_id` u32 + `timestamp` f32) and treats the whole remainder as the
color JPEG.  `struct.unpack('<f', header[4:8])` raises unless the message
has at least 8 bytes; the surrounding `except` then drops the message.
Note that `server.py` imports `handle_pi_message` from
`message_handler.py`, not from this module. -/

def parseLegacyBinary (msg : List Nat) : Option (Nat × Nat × List Nat) :=
  match msg with
  | b0 :: b1 :: b2 :: b3 :: t0 :: t1 :: t2 :: t3 :: rest =>
      some (leU32 b0 b1 b2 b3, leU32 t0 t1 t2 t3, rest)
  | _ => none

/-- The text `frame` message the legacy handler fans out to browsers. -/
structure LegacyFrameMsg where
  frame_id : Nat
  tsBits : Nat
  image : List Nat
  processed : Bool
  deriving Repr, DecidableEq

/-- The `frame_to_process` message the legacy handler sends to the Worker. -/
structure WorkerFrameL where
  frame_id : Nat
  tsBits : Nat
  image : List Nat
  deriving Repr, DecidableEq

structure PiLegacyResult where
  queue : List QueueEntry
  toWorker : Option WorkerFrameL
  browserMsg : Option LegacyFrameMsg
  timedOut : Bool
  closedSession : Bool
  deriving Repr, DecidableEq

def handlePiLegacy (workerPresent : Bool) (queue : List QueueEntry)
    (msg : List Nat) : PiLegacyResult :=
  match parseLegacyBinary msg with
  | none =>
      { queue := queue, toWorker := none, browserMsg := none,
        timedOut := false, closedSession := false }
  | some (fid, ts, payload) =>
      let b64 := base64Encode payload
      let admitted := workerPresent && decide (queue.length < frameQueueMaxsize)
      { queue :=
          if admitted then
            queue ++ [{ frame_id := fid, timestamp := .f32bits ts,
                        image := some b64, camera_info := none }]
          else queue
        toWorker :=
          if admitted then some { frame_id := fid, tsBits := ts, image := b64 }
          else none
        browserMsg :=
          some { frame_id := fid, tsBits := ts, image := b64, processed := false }
        timedOut := workerPresent && !decide (queue.length < frameQueueMaxsize)
        closedSession := false }

/-! ## `handle_pi_message`, JSON `frame` branch

`data.get("frame_id", 0)`, `data.get("timestamp", time.time())` and
`data.get(...)` defaults are modelled with `Option.getD`; string payloads
(`image`, `camera_info`, `depth_data`) are opaque byte blobs. -/

/-- The JSON fields of a Producer `frame` message
(`None` = key absent, triggering the code's `.get` default). -/
structure JsonFrameData where
  frame_id : Option Nat
  timestamp : Option ℚ
  image : Option (List Nat)
  camera_info : Option (List Nat)
  depth_data : Option (List Nat)
  depth_scale : Option ℚ
  width : Option Nat
  height : Option Nat
  deriving Repr, DecidableEq

/-- `frame_to_process` message sent to the Worker by the JSON branch. -/
structure WorkerFrameJ where
  frame_id : Nat
  timestamp : ℚ
  image : Option (List Nat)
  camera_info : List Nat
  deriving Repr, DecidableEq

/-- The text `frame` message fanned out to browsers by the JSON branch;
depth-related fields are present exactly when `"depth_data" in data`. -/
structure FrameMsgJ where
  frame_id : Nat
  timestamp : ℚ
  image : Option (List Nat)
  processed : Bool
  camera_info : List Nat
  depth_data : Option (List Nat)
  depth_scale : Option ℚ
  width : Option Nat
  height : Option Nat
  deriving Repr, DecidableEq

structure PiJsonResult where
  queue : List QueueEntry
  toWorker : Option WorkerFrameJ
  browserMsg : Option FrameMsgJ
  timedOut : Bool
  closedSession : Bool
  deriving Repr, DecidableEq

def handlePiJsonFrame (workerPresent : Bool) (queue : List QueueEntry)
    (now : ℚ) (d : JsonFrameData) : PiJsonResult :=
  let fid := d.frame_id.getD 0
  let ts := d.timestamp.getD now
  let admitted := workerPresent && decide (queue.length < frameQueueMaxsize)
  { queue :=
      if admitted then
        queue ++ [{ frame_id := fid, timestamp := .clock ts, image := d.image,
                    camera_info := some (d.camera_info.getD []) }]
      else queue
    toWorker :=
      if admitted then
        some { frame_id := fid, timestamp := ts, image := d.image,
               camera_info := d.camera_info.getD [] }
      else none
    browserMsg :=
      some { frame_id := fid, timestamp := ts, image := d.image,
             processed := false, camera_info := d.camera_info.getD [],
             depth_data := if d.depth_data.isSome then d.depth_data else none,
             depth_scale :=
               if d.depth_data.isSome then some (d.depth_scale.getD (1 / 1000)) else none,
             width := if d.depth_data.isSome then some (d.width.getD 640) else none,
             height := if d.depth_data.isSome then some (d.height.getD 480) else none }
    timedOut := workerPresent && !decide (queue.length < frameQueueMaxsize)
    closedSession := false }

/-! ## `handle_browser_message` (`src/server/message_handler.py`) -/

/-- The module-level `servo_state` dict with defaults
`{"pan": 90, "tilt": 90, "roll": 0}`. -/
structure ServoState where
  pan : Int
  tilt : Int
  roll : Int
  deriving Repr, DecidableEq

def initialServoState : ServoState := { pan := 90, tilt := 90, roll := 0 }

/-- The `{"type": "control", "action": "move_servos", ...}` message
forwarded to the Producer. -/
structure ControlMsg where
  action : String
  params : ServoState
  timestamp : ℚ
  deriving Repr, DecidableEq

/-- Parsed browser-to-server messages; `servoControl` carries whichever of
`pan`/`tilt`/`roll` are present in the request. -/
inductive BrowserMsg where
  | ping
  | hello
  | servoControl (pan tilt roll : Option Int)
  | requestStatus
  | unknown
  | malformed
  deriving Repr, DecidableEq

/-- Replies sent back on the requesting browser socket. -/
inductive BrowserReply where
  | pong (now : ℚ)
  | welcome (piConnected wslConnected : Bool) (now : ℚ)
  | servoUpdated (state : ServoState) (now : ℚ)
  | errorReply (error : String) (now : ℚ)
  | statusReply (piConnected wslConnected : Bool) (browserCount : Nat)
      (state : ServoState) (now : ℚ)
  deriving Repr, DecidableEq

structure BrowserMsgResult where
  servo : ServoState
  toPi : Option ControlMsg
  reply : Option BrowserReply
  deriving Repr, DecidableEq

def handleBrowserMessage (piPresent wslPresent : Bool) (browserCount : Nat)
    (servo : ServoState) (now : ℚ) (m : BrowserMsg) : BrowserMsgResult :=
  match m with
  | .ping => { servo := servo, toPi := none, reply := some (.pong now) }
  | .hello =>
      { servo := servo, toPi := none,
        reply := some (.welcome piPresent wslPresent now) }
  | .servoControl p t r =>
      if piPresent then
        let servo' : ServoState :=
          { pan := p.getD servo.pan, tilt := t.getD servo.tilt,
            roll := r.getD servo.roll }
        { servo := servo',
          toPi := some { action := "move_servos", params := servo', timestamp := now },
          reply := some (.servoUpdated servo' now) }
      else
        { servo := servo, toPi := none,
          reply := some (.errorReply "Pi not connected" now) }
  | .requestStatus =>
      { servo := servo, toPi := none,
        reply := some (.statusReply piPresent wslPresent browserCount servo now) }
  | .unknown => { servo := servo, toPi := none, reply := none }
  | .malformed => { servo := servo, toPi := none, reply := none }

/-! ## `handle_wsl_message` (`src/server/message_handler.py`)

`processed_frames[frame_id] = {...}` is plain dict assignment: it
overwrites an existing key or appends a new one, and nothing in the whole
program ever deletes an entry.  Detection records are opaque. -/

/-- A value stored in the `processed_frames` dict. -/
structure PfEntry where
  detections : List Nat
  timestamp : ℚ
  deriving Repr, DecidableEq

/-- Parsed Worker-to-server messages. -/
inductive WslMsg where
  | ping
  | processedFrame (frame_id : Option Nat) (detections : Option (List Nat))
      (processing_time : Option ℚ)
  | unknown
  | malformed
  deriving Repr, DecidableEq

/-- The `detection_result` message sent to the Producer. -/
structure DetectionResultMsg where
  frame_id : Nat
  detections : List Nat
  timestamp : ℚ
  deriving Repr, DecidableEq

/-- The `detection_result` message sent to each browser client
(the browser copy also carries `processing_time`). -/
structure DetectionResultMsgB where
  frame_id : Nat
  detections : List Nat
  timestamp : ℚ
  processing_time : ℚ
  deriving Repr, DecidableEq

/-- Python dict assignment `d[k] = v` on an insertion-ordered dict. -/
def dictInsert (k : Nat) (v : PfEntry) (d : List (Nat × PfEntry)) :
    List (Nat × PfEntry) :=
  if d.any (fun kv => kv.1 == k) then
    d.map (fun kv => if kv.1 == k then (k, v) else kv)
  else d ++ [(k, v)]

structure WslMsgResult where
  processedFrames : List (Nat × PfEntry)
  toPi : Option DetectionResultMsg
  toBrowsers : List (Nat × DetectionResultMsgB)
  reply : Option BrowserReply
  deriving Repr, DecidableEq

def handleWslMessage (piPresent : Bool) (browsers : List Nat)
    (pf : List (Nat × PfEntry)) (now : ℚ) (m : WslMsg) : WslMsgResult :=
  match m with
  | .ping =>
      { processedFrames := pf, toPi := none, toBrowsers := [],
        reply := some (.pong now) }
  | .processedFrame fid dets pt =>
      let fid' := fid.getD 0
      let dets' := dets.getD []
      { processedFrames := dictInsert fid' { detections := dets', timestamp := now } pf
        toPi :=
          if piPresent then
            some { frame_id := fid', detections := dets', timestamp := now }
          else none
        toBrowsers :=
          browsers.map fun c =>
            (c, { frame_id := fid', detections := dets', timestamp := now,
                  processing_time := pt.getD 0 })
        reply := none }
  | .unknown =>
      { processedFrames := pf, toPi := none, toBrowsers := [], reply := none }
  | .malformed =>
      { processedFrames := pf, toPi := none, toBrowsers := [], reply := none }

/-! ## Connection-time rate limiting (`handle_browser_client`,
`src/server/server.py`)

`last_connection_time[ip]` holds the recent connection timestamps; the
code filters to those within `connection_limit_window = 60` seconds,
appends the present time, stores the result back, and refuses the
connection (error message, then `close(1008, ...)`) when the stored list
exceeds `max_connections_per_window = 30`.  `client_ip` is the literal
string `"unknown"` only when the transport reports no remote address. -/

def connectionLimitWindow : ℚ := 60

def maxConnectionsPerWindow : Nat := 30

def whitelistedIps : List String := ["127.0.0.1", "localhost"]

/-- Outcome of the flood check at browser-connection time. -/
structure ConnectDecision where
  accepted : Bool
  errorSent : Option String
  closeCode : Option (Nat × String)
  history : List ℚ
  deriving Repr, DecidableEq

def checkBrowserRateLimit (ip : String) (hist : List ℚ) (now : ℚ) :
    ConnectDecision :=
  if ip ≠ "unknown" ∧ ip ∉ whitelistedIps then
    let recent := (hist.filter fun t => now - t < connectionLimitWindow) ++ [now]
    if maxConnectionsPerWindow < recent.length then
      { accepted := false, errorSent := some "Rate limit exceeded",
        closeCode := some (1008, "Rate limit exceeded"), history := recent }
    else
      { accepted := true, errorSent := none, closeCode := none, history := recent }
  else
    { accepted := true, errorSent := none, closeCode := none, history := hist }

/-! ## Singleton attach (`handle_pi_client` / `handle_wsl_processor`,
`src/server/server.py`)

When the slot is already occupied, the new socket is closed with code
1008 and the handler returns without touching the slot; otherwise the
socket takes the slot and (for the Producer) a `pi_connected` status is
broadcast to the other clients. -/

structure AttachResult where
  slot : Option Nat
  closeCode : Option (Nat × String)
  statusBroadcast : Option String
  deriving Repr, DecidableEq

def attachPi (cur : Option Nat) (newId : Nat) : AttachResult :=
  match cur with
  | some p =>
      { slot := some p,
        closeCode := some (1008, "Another Pi is already connected"),
        statusBroadcast := none }
  | none =>
      { slot := some newId, closeCode := none,
        statusBroadcast := some "pi_connected" }

def attachWsl (cur : Option Nat) (newId : Nat) : AttachResult :=
  match cur with
  | some w =>
      { slot := some w,
        closeCode := some (1008, "Another WSL processor is already connected"),
        statusBroadcast := none }
  | none =>
      { slot := some newId, closeCode := none, statusBroadcast := none }

/-! ## Whole-server state and event loop

One step per entry point of `server.py`.  Only the state updates are kept
here; the messages each handler emits are given by the handler functions
above. -/

structure ServerState where
  piClient : Option Nat
  wslClient : Option Nat
  browsers : List Nat
  servo : ServoState
  frameQueue : List QueueEntry
  processedFrames : List (Nat × PfEntry)
  connHistory : List (String × List ℚ)
  deriving Repr, DecidableEq

def initialState : ServerState :=
  { piClient := none, wslClient := none, browsers := [],
    servo := initialServoState, frameQueue := [], processedFrames := [],
    connHistory := [] }

def lookupHistory (h : List (String × List ℚ)) (ip : String) : List ℚ :=
  match h.find? (fun kv => kv.1 == ip) with
  | some kv => kv.2
  | none => []

def setHistory (h : List (String × List ℚ)) (ip : String) (v : List ℚ) :
    List (String × List ℚ) :=
  if h.any (fun kv => kv.1 == ip) then
    h.map (fun kv => if kv.1 == ip then (ip, v) else kv)
  else h ++ [(ip, v)]

/-- Every externally triggered entry point of the server. -/
inductive Event where
  | browserConnect (id : Nat) (ip : String) (now : ℚ)
  | browserDisconnect (id : Nat)
  | piConnect (id : Nat)
  | piDisconnect (id : Nat)
  | wslConnect (id : Nat)
  | wslDisconnect (id : Nat)
  | browserMessage (id : Nat) (now : ℚ) (m : BrowserMsg)
  | piBinaryMessage (msg : List Nat)
  | piJsonFrame (now : ℚ) (d : JsonFrameData)
  | piJsonOther
  | wslMessage (now : ℚ) (m : WslMsg)

def step (s : ServerState) (e : Event) : ServerState :=
  match e with
  | .browserConnect id ip now =>
      let d := checkBrowserRateLimit ip (lookupHistory s.connHistory ip) now
      let s' :=
        if ip ≠ "unknown" ∧ ip ∉ whitelistedIps then
          { s with connHistory := setHistory s.connHistory ip d.history }
        else s
      if d.accepted then { s' with browsers := s'.browsers ++ [id] } else s'
  | .browserDisconnect id =>
      { s with browsers := s.browsers.filter fun b => b != id }
  | .piConnect id =>
      match s.piClient with
      | some _ => s
      | none => { s with piClient := some id }
  | .piDisconnect id =>
      if s.piClient = some id then { s with piClient := none } else s
  | .wslConnect id =>
      match s.wslClient with
      | some _ => s
      | none => { s with wslClient := some id }
  | .wslDisconnect id =>
      if s.wslClient = some id then { s with wslClient := none } else s
  | .browserMessage _ now m =>
      { s with servo :=
          (handleBrowserMessage s.piClient.isSome s.wslClient.isSome
            s.browsers.length s.servo now m).servo }
  | .piBinaryMessage msg =>
      { s with frameQueue :=
          (handlePiBinary s.wslClient.isSome s.frameQueue msg).queue }
  | .piJsonFrame now d =>
      { s with frameQueue :=
          (handlePiJsonFrame s.wslClient.isSome s.frameQueue now d).queue }
  | .piJsonOther => s
  | .wslMessage now m =>
      { s with processedFrames :=
          (handleWslMessage s.piClient.isSome s.browsers s.processedFrames
            now m).processedFrames }

/-- The server run on a sequence of events from its initial state. -/
def run (es : List Event) : ServerState := es.foldl step initialState

/-! ## Supporting lemmas -/

theorem handlePiBinary_queue_cases (w : Bool) (q : List QueueEntry) (m : List Nat) :
    (handlePiBinary w q m).queue = q ∨
      (q.length < frameQueueMaxsize ∧
        ∃ en, (handlePiBinary w q m).queue = q ++ [en]) := by
  unfold handlePiBinary
  cases hp : parsePiBinary m with
  | none => left; rfl
  | some f =>
      by_cases hw : (w && decide (q.length < frameQueueMaxsize)) = true
      · right
        refine ⟨of_decide_eq_true (Bool.and_eq_true_iff.mp hw).2, ?_⟩
        exact ⟨{ frame_id := f.frame_id, timestamp := .f32bits f.tsBits,
                 image := f.color_data, camera_info := none }, by simp [hw]⟩
      · left
        simp [hw]

theorem handlePiJson_queue_cases (w : Bool) (q : List QueueEntry) (now : ℚ)
    (d : JsonFrameData) :
    (handlePiJsonFrame w q now d).queue = q ∨
      (q.length < frameQueueMaxsize ∧
        ∃ en, (handlePiJsonFrame w q now d).queue = q ++ [en]) := by
  unfold handlePiJsonFrame
  by_cases hw : (w && decide (q.length < frameQueueMaxsize)) = true
  · right
    refine ⟨of_decide_eq_true (Bool.and_eq_true_iff.mp hw).2, ?_⟩
    exact ⟨{ frame_id := d.frame_id.getD 0, timestamp := .clock (d.timestamp.getD now),
             image := d.image, camera_info := some (d.camera_info.getD []) },
           by simp [hw]⟩
  · left
    simp [hw]

theorem step_queue_cases (s : ServerState) (e : Event) :
    (step s e).frameQueue = s.frameQueue ∨
      (s.frameQueue.length < frameQueueMaxsize ∧
        ∃ en, (step s e).frameQueue = s.frameQueue ++ [en]) := by
  cases e with
  | browserConnect id ip now =>
      left
      unfold step
      by_cases h : (checkBrowserRateLimit ip (lookupHistory s.connHistory ip) now).accepted = true <;>
        by_cases h2 : ip ≠ "unknown" ∧ ip ∉ whitelistedIps <;>
        simp [h, h2]
  | browserDisconnect id => left; rfl
  | piConnect id =>
      left
      unfold step
      cases s.piClient <;> rfl
  | piDisconnect id =>
      left
      unfold step
      by_cases h : s.piClient = some id <;> simp [h]
  | wslConnect id =>
      left
      unfold step
      cases s.wslClient <;> rfl
  | wslDisconnect id =>
      left
      unfold step
      by_cases h : s.wslClient = some id <;> simp [h]
  | browserMessage id now m => left; rfl
  | piBinaryMessage msg => exact handlePiBinary_queue_cases _ _ _
  | piJsonFrame now d => exact handlePiJson_queue_cases _ _ _ _
  | piJsonOther => left; rfl
  | wslMessage now m => left; rfl

theorem foldl_step_queue_le (es : List Event) :
    ∀ s : ServerState, s.frameQueue.length ≤ frameQueueMaxsize →
      (es.foldl step s).frameQueue.length ≤ frameQueueMaxsize := by
  induction es with
  | nil => intro s hs; exact hs
  | cons e t ih =>
      intro s hs
      apply ih
      rcases step_queue_cases s e with h | ⟨hlt, en, he⟩
      · rw [h]; exact hs
      · rw [he]
        simp only [List.length_append, List.length_cons, List.length_nil]
        omega

theorem dictInsert_length_ge (k : Nat) (v : PfEntry) (d : List (Nat × PfEntry)) :
    d.length ≤ (dictInsert k v d).length := by
  unfold dictInsert
  by_cases h : d.any (fun kv => kv.1 == k) = true <;> simp [h]

theorem dictInsert_fresh (k : Nat) (v : PfEntry) (d : List (Nat × PfEntry))
    (h : k ∉ d.map Prod.fst) : dictInsert k v d = d ++ [(k, v)] := by
  unfold dictInsert
  rw [if_neg]
  intro hc
  rcases List.any_eq_true.mp hc with ⟨kv, hkv, heq⟩
  exact h (List.mem_map.mpr ⟨kv, hkv, by simpa using heq⟩)

theorem step_processedFrames_mono (s : ServerState) (e : Event) :
    s.processedFrames.length ≤ (step s e).processedFrames.length := by
  cases e with
  | browserConnect id ip now =>
      unfold step
      by_cases h : (checkBrowserRateLimit ip (lookupHistory s.connHistory ip) now).accepted = true <;>
        by_cases h2 : ip ≠ "unknown" ∧ ip ∉ whitelistedIps <;>
        simp [h, h2]
  | browserDisconnect id => exact Nat.le_refl _
  | piConnect id =>
      unfold step
      cases s.piClient <;> exact Nat.le_refl _
  | piDisconnect id =>
      unfold step
      by_cases h : s.piClient = some id <;> simp [h]
  | wslConnect id =>
      unfold step
      cases s.wslClient <;> exact Nat.le_refl _
  | wslDisconnect id =>
      unfold step
      by_cases h : s.wslClient = some id <;> simp [h]
  | browserMessage id now m => exact Nat.le_refl _
  | piBinaryMessage msg => exact Nat.le_refl _
  | piJsonFrame now d => exact Nat.le_refl _
  | piJsonOther => exact Nat.le_refl _
  | wslMessage now m =>
      unfold step handleWslMessage
      cases m with
      | ping => exact Nat.le_refl _
      | processedFrame fid dets pt => exact dictInsert_length_ge _ _ _
      | unknown => exact Nat.le_refl _
      | malformed => exact Nat.le_refl _

/-- The event trace of `n` Worker `processed_frame` results with distinct
`frame_id`s `0, 1, ..., n-1`. -/
def pfEvents (n : Nat) : List Event :=
  (List.range n).map fun i => Event.wslMessage 0 (.processedFrame (some i) none none)

theorem pfEvents_keys (n : Nat) :
    (run (pfEvents n)).processedFrames.map Prod.fst = List.range n := by
  induction n with
  | zero => rfl
  | succ m ih =>
      have hsplit : pfEvents (m + 1) =
          pfEvents m ++ [Event.wslMessage 0 (.processedFrame (some m) none none)] := by
        simp [pfEvents, List.range_succ]
      unfold run at ih ⊢
      have hfresh :
          m ∉ (List.foldl step initialState (pfEvents m)).processedFrames.map Prod.fst := by
        rw [ih]
        simp
      rw [hsplit]
      rw [List.foldl_append]
      simp only [List.foldl_cons, List.foldl_nil]
      show (List.map Prod.fst (dictInsert m _ _)) = _
      rw [dictInsert_fresh _ _ _ hfresh]
      rw [List.map_append, ih, List.range_succ]
      rfl

/-! ## Sample inputs used by witness theorems -/

/-- A well-formed typed binary frame: `frame_id = 42`, f32 bits of 1.5 as
timestamp, `has_color = 1`, `has_depth = 0`, two color bytes. -/
def sampleColorFrame : List Nat := encodeBinaryFrame 42 1069547520 false [255, 216] [] 0

def sampleDecoded : DecodedFrame :=
  { frame_id := 42, tsBits := 1069547520, has_color := true, has_depth := false,
    color_data := some (base64Encode [255, 216]), depth_data := none,
    depth_scale_bits := f32bitsDefaultDepthScale }

def sampleEntry : QueueEntry :=
  { frame_id := 0, timestamp := .f32bits 0, image := none, camera_info := none }

def sampleFullQueue : List QueueEntry := List.replicate 5 sampleEntry

def sampleJsonFrame : JsonFrameData :=
  { frame_id := some 3, timestamp := none, image := none, camera_info := none,
    depth_data := none, depth_scale := none, width := none, height := none }

/-! ## The claims -/

/-- Claim C1: a well-formed typed binary frame with `has_color = 1`
round-trips into the viewers' text `frame` message: `frame_id` and the f32
`timestamp` bits are exactly those at offsets 0 and 4, base64-decoding the
`image` field returns the original color bytes, `depth_scale` is carried
bit-exactly when `has_depth = 1`, and the message carries
`binary_received: true`. -/
theorem c1_binary_frame_roundtrip (fid ts : Nat) (hasDepth : Bool)
    (color depth : List Nat) (ds : Nat) (workerPresent : Bool)
    (queue : List QueueEntry)
    (hfid : fid < 4294967296) (hts : ts < 4294967296)
    (hcolor : ∀ x ∈ color, x < 256)
    (hclen : color.length < 4294967296) (hdlen : depth.length < 4294967296)
    (hds : ds < 4294967296) :
    ∃ fm : FrameMsgB,
      (handlePiBinary workerPresent queue
          (encodeBinaryFrame fid ts hasDepth color depth ds)).browserMsg = some fm ∧
      fm.frame_id = fid ∧
      fm.tsBits = ts ∧
      fm.image = some (base64Encode color) ∧
      base64Decode (base64Encode color) = some color ∧
      (hasDepth = true → fm.depth_scale_bits = some ds) ∧
      fm.binary_received = true := by
  have hp := parsePiBinary_encode fid ts hasDepth color depth ds hfid hts hclen hdlen hds
  unfold handlePiBinary
  rw [hp]
  refine ⟨_, rfl, rfl, rfl, rfl, base64_roundtrip color hcolor, ?_, rfl⟩
  cases hasDepth with
  | false => intro h; cases h
  | true => intro _; rfl

theorem c1_witness :
    ∃ fm : FrameMsgB,
      (handlePiBinary false []
          (encodeBinaryFrame 42 1069547520 true [255, 216] [7] 5)).browserMsg = some fm ∧
      fm.frame_id = 42 ∧
      fm.tsBits = 1069547520 ∧
      fm.image = some (base64Encode [255, 216]) ∧
      base64Decode (base64Encode [255, 216]) = some [255, 216] ∧
      (true = true → fm.depth_scale_bits = some 5) ∧
      fm.binary_received = true :=
  c1_binary_frame_roundtrip 42 1069547520 true [255, 216] [7] 5 false []
    (by decide) (by decide) (by decide) (by decide) (by decide) (by decide)

/-- Claim C2: the in-flight queue never exceeds its capacity of 5 along any
event trace; with no Worker the pipeline is skipped (no `frame_to_process`,
queue untouched) but the frame is still fanned out; with a Worker and a
full queue the 100 ms admission times out, the frame is dropped from the
pipeline with a warning while fan-out still occurs and the Producer session
stays open. -/
theorem c2_pipeline_backpressure :
    (∀ es : List Event, (run es).frameQueue.length ≤ frameQueueMaxsize) ∧
    frameQueueMaxsize = 5 ∧ admissionTimeoutMs = 100 ∧
    (∀ (queue : List QueueEntry) (msg : List Nat) (f : DecodedFrame),
       parsePiBinary msg = some f →
         (handlePiBinary false queue msg).queue = queue ∧
         (handlePiBinary false queue msg).toWorker = none ∧
         (handlePiBinary false queue msg).browserMsg.isSome = true ∧
         (handlePiBinary false queue msg).timedOut = false ∧
         (handlePiBinary false queue msg).closedSession = false) ∧
    (∀ (queue : List QueueEntry) (msg : List Nat) (f : DecodedFrame),
       parsePiBinary msg = some f → frameQueueMaxsize ≤ queue.length →
         (handlePiBinary true queue msg).queue = queue ∧
         (handlePiBinary true queue msg).toWorker = none ∧
         (handlePiBinary true queue msg).timedOut = true ∧
         (handlePiBinary true queue msg).browserMsg.isSome = true ∧
         (handlePiBinary true queue msg).closedSession = false) := by
  refine ⟨fun es => foldl_step_queue_le es initialState (by simp [initialState]),
    rfl, rfl, ?_, ?_⟩
  · intro q m f hp
    unfold handlePiBinary
    rw [hp]
    simp
  · intro q m f hp hfull
    unfold handlePiBinary
    rw [hp]
    have hd : decide (q.length < frameQueueMaxsize) = false :=
      decide_eq_false (by omega)
    simp [hd]

theorem c2_witness :
    (handlePiBinary false [] sampleColorFrame).toWorker = none ∧
    (handlePiBinary true sampleFullQueue sampleColorFrame).timedOut = true := by
  constructor
  · exact (c2_pipeline_backpressure.2.2.2.1 [] sampleColorFrame sampleDecoded
      (by decide)).2.1
  · exact (c2_pipeline_backpressure.2.2.2.2 sampleFullQueue sampleColorFrame
      sampleDecoded (by decide) (by decide)).2.2.1

/-- Claim C3: the Producer and Worker slots are singletons: an attach to an
occupied slot closes the new socket with code 1008 and the respective
"Another ... is already connected" message while the occupant keeps the
slot, and the corresponding state transition leaves the server state
unchanged. -/
theorem c3_singleton_role_exclusivity :
    (∀ p newId : Nat, attachPi (some p) newId =
      { slot := some p,
        closeCode := some (1008, "Another Pi is already connected"),
        statusBroadcast := none }) ∧
    (∀ w newId : Nat, attachWsl (some w) newId =
      { slot := some w,
        closeCode := some (1008, "Another WSL processor is already connected"),
        statusBroadcast := none }) ∧
    (∀ (s : ServerState) (p id : Nat), s.piClient = some p →
      step s (.piConnect id) = s) ∧
    (∀ (s : ServerState) (w id : Nat), s.wslClient = some w →
      step s (.wslConnect id) = s) := by
  refine ⟨fun p n => rfl, fun w n => rfl, ?_, ?_⟩
  · intro s p id h
    unfold step
    rw [h]
  · intro s w id h
    unfold step
    rw [h]

theorem c3_witness :
    step { initialState with piClient := some 7 } (.piConnect 9) =
      { initialState with piClient := some 7 } :=
  c3_singleton_role_exclusivity.2.2.1 _ 7 9 rfl

/-- Claim C4: a viewer `servo_control` with a Producer present yields the
prior ServoState overridden by exactly the fields present in the request,
forwarded to the Producer as `control`/`move_servos` with the new state and
acked to the viewer as `servo_updated`; with no Producer the viewer gets
the error "Pi not connected" and the state is unchanged. -/
theorem c4_servo_control :
    ∀ (wsl : Bool) (n : Nat) (servo : ServoState) (now : ℚ)
      (p t r : Option Int),
      handleBrowserMessage true wsl n servo now (.servoControl p t r) =
        { servo := { pan := p.getD servo.pan, tilt := t.getD servo.tilt,
                     roll := r.getD servo.roll },
          toPi := some { action := "move_servos",
                         params := { pan := p.getD servo.pan,
                                     tilt := t.getD servo.tilt,
                                     roll := r.getD servo.roll },
                         timestamp := now },
          reply := some (.servoUpdated
            { pan := p.getD servo.pan, tilt := t.getD servo.tilt,
              roll := r.getD servo.roll } now) } ∧
      handleBrowserMessage false wsl n servo now (.servoControl p t r) =
        { servo := servo, toPi := none,
          reply := some (.errorReply "Pi not connected" now) } := by
  intro wsl n servo now p t r
  exact ⟨rfl, rfl⟩

/-- Claim C5: any strict truncation of a well-formed `has_color = 1` binary
frame is a decode failure: the handler drops the message, sends nothing to
viewers or the Worker, leaves the queue unchanged, and does not close the
Producer session. -/
theorem c5_truncation_drops (fid ts : Nat) (hasDepth : Bool)
    (color depth : List Nat) (ds k : Nat) (w : Bool) (queue : List QueueEntry)
    (hfid : fid < 4294967296) (hts : ts < 4294967296)
    (hclen : color.length < 4294967296) (hdlen : depth.length < 4294967296)
    (hk : k < (encodeBinaryFrame fid ts hasDepth color depth ds).length) :
    parsePiBinary ((encodeBinaryFrame fid ts hasDepth color depth ds).take k) = none ∧
    handlePiBinary w queue ((encodeBinaryFrame fid ts hasDepth color depth ds).take k) =
      { queue := queue, toWorker := none, browserMsg := none,
        timedOut := false, closedSession := false } := by
  have h := parsePiBinary_truncated fid ts hasDepth color depth ds k
    hfid hts hclen hdlen hk
  refine ⟨h, ?_⟩
  unfold handlePiBinary
  rw [h]

theorem c5_witness :
    parsePiBinary ((encodeBinaryFrame 42 7 true [255, 216] [9] 5).take 12) = none :=
  (c5_truncation_drops 42 7 true [255, 216] [9] 5 12 false []
    (by decide) (by decide) (by decide) (by decide) (by decide)).1

/-- Claim C6 counterexample: a legacy short-form frame (8-byte header
`frame_id = 42`, f32 bits of 1.5, then the two JPEG bytes FF D8) is NOT
accepted by the handler the server dispatches Pi messages to
(`message_handler.handle_pi_message`): the typed parser reads byte 8 as
`has_color`, byte 9 as `has_depth`, finds no room for `color_length`, and
drops the frame, fanning nothing out — though the alternate legacy handler
in `utils.py` would accept it. -/
theorem c6_counterexample :
    parseLegacyBinary [42, 0, 0, 0, 0, 0, 192, 63, 255, 216] =
        some (42, 1069547520, [255, 216]) ∧
    parsePiBinary [42, 0, 0, 0, 0, 0, 192, 63, 255, 216] = none ∧
    (handlePiBinary true [] [42, 0, 0, 0, 0, 0, 192, 63, 255, 216]).browserMsg = none ∧
    (handlePiBinary true [] [42, 0, 0, 0, 0, 0, 192, 63, 255, 216]).toWorker = none := by
  decide

/-- Claim C6 (amended): legacy short-form binary frames are accepted and
fanned out as frames only by the alternate `handle_pi_message` of
`src/utils.py` (not imported by `server.py`): that handler decodes the
8-byte header as `frame_id` plus f32 `timestamp` and broadcasts the whole
remainder, base64-encoded, as the color payload, never closing the
session. -/
theorem c6_amended_legacy (fid ts : Nat) (payload : List Nat) (w : Bool)
    (q : List QueueEntry)
    (hfid : fid < 4294967296) (hts : ts < 4294967296) :
    parseLegacyBinary (u32le fid ++ (u32le ts ++ payload)) = some (fid, ts, payload) ∧
    (handlePiLegacy w q (u32le fid ++ (u32le ts ++ payload))).browserMsg =
      some { frame_id := fid, tsBits := ts, image := base64Encode payload,
             processed := false } ∧
    (handlePiLegacy w q (u32le fid ++ (u32le ts ++ payload))).closedSession = false := by
  have hp : parseLegacyBinary (u32le fid ++ (u32le ts ++ payload)) =
      some (fid, ts, payload) := by
    simp only [u32le, List.cons_append, List.nil_append, parseLegacyBinary]
    rw [leU32_u32le fid hfid, leU32_u32le ts hts]
  refine ⟨hp, ?_, ?_⟩
  · unfold handlePiLegacy
    rw [hp]
  · unfold handlePiLegacy
    rw [hp]

theorem c6_amended_witness :
    (handlePiLegacy false [] (u32le 42 ++ (u32le 1069547520 ++ [255, 216]))).browserMsg =
      some { frame_id := 42, tsBits := 1069547520, image := base64Encode [255, 216],
             processed := false } :=
  (c6_amended_legacy 42 1069547520 [255, 216] false [] (by decide) (by decide)).2.1

/-- Claim C7: a connection from a non-exempt address whose 60-second window
would exceed 30 entries after inserting the present time is sent
`error: "Rate limit exceeded"` and closed with code 1008, while
`127.0.0.1` and `localhost` are never refused by the rate limiter. -/
theorem c7_rate_limiting (ip : String) (hist : List ℚ) (now : ℚ)
    (h1 : ip ≠ "unknown") (h2 : ip ≠ "127.0.0.1") (h3 : ip ≠ "localhost") :
    (maxConnectionsPerWindow <
        (hist.filter fun t => now - t < connectionLimitWindow).length + 1 →
      checkBrowserRateLimit ip hist now =
        { accepted := false, errorSent := some "Rate limit exceeded",
          closeCode := some (1008, "Rate limit exceeded"),
          history := (hist.filter fun t => now - t < connectionLimitWindow) ++ [now] }) ∧
    (∀ wip ∈ whitelistedIps, ∀ (h : List ℚ) (n : ℚ),
        (checkBrowserRateLimit wip h n).accepted = true ∧
        (checkBrowserRateLimit wip h n).closeCode = none) := by
  constructor
  · intro hcount
    have hmem : ip ∉ whitelistedIps := by
      simp [whitelistedIps, h2, h3]
    have hc2 : maxConnectionsPerWindow <
        ((hist.filter fun t => now - t < connectionLimitWindow) ++ [now]).length := by
      simpa using hcount
    unfold checkBrowserRateLimit
    rw [if_pos ⟨h1, hmem⟩, if_pos hc2]
  · intro wip hw h n
    have : ¬(wip ≠ "unknown" ∧ wip ∉ whitelistedIps) := fun hcon => hcon.2 hw
    unfold checkBrowserRateLimit
    rw [if_neg this]
    exact ⟨rfl, rfl⟩

theorem c7_witness :
    checkBrowserRateLimit "10.0.0.9" (List.replicate 30 (0 : ℚ)) 0 =
      { accepted := false, errorSent := some "Rate limit exceeded",
        closeCode := some (1008, "Rate limit exceeded"),
        history := ((List.replicate 30 (0 : ℚ)).filter
          fun t => 0 - t < connectionLimitWindow) ++ [0] } :=
  (c7_rate_limiting "10.0.0.9" (List.replicate 30 (0 : ℚ)) 0
    (by decide) (by decide) (by decide)).1
    (by simp [List.filter_replicate, connectionLimitWindow, maxConnectionsPerWindow])

/-- Claim C8 (refuted by the code): `processed_frames` has no eviction of
any kind.  No server event ever shrinks it, and after `n` Worker results
with distinct `frame_id`s it holds exactly `n` entries — in particular 257
entries after 257 results, exceeding the claimed 256-entry cap, and the
claimed 30-second age bound is violated because nothing is ever removed. -/
theorem c8_processed_frames_unbounded :
    (∀ (s : ServerState) (e : Event),
        s.processedFrames.length ≤ (step s e).processedFrames.length) ∧
    (∀ n : Nat, (run (pfEvents n)).processedFrames.length = n) ∧
    256 < (run (pfEvents 257)).processedFrames.length := by
  have hlen : ∀ n : Nat, (run (pfEvents n)).processedFrames.length = n := by
    intro n
    have h := congrArg List.length (pfEvents_keys n)
    simpa using h
  exact ⟨step_processedFrames_mono, hlen, by rw [hlen 257]; omega⟩

/-- Claim C9: every Worker `processed_frame` result — whether or not its
`frame_id` is anywhere in the in-flight structures, which the handler never
consults — produces one `detection_result` to the Producer when present,
and one `detection_result` with `processing_time` to every connected
viewer; the frame queue is untouched. -/
theorem c9_processed_frame_fanout :
    ∀ (piPresent : Bool) (browsers : List Nat) (pf : List (Nat × PfEntry))
      (now : ℚ) (fid : Option Nat) (dets : Option (List Nat)) (pt : Option ℚ)
      (s : ServerState),
      (handleWslMessage piPresent browsers pf now
          (.processedFrame fid dets pt)).toPi =
        (if piPresent then
          some { frame_id := fid.getD 0, detections := dets.getD [],
                 timestamp := now }
         else none) ∧
      (handleWslMessage piPresent browsers pf now
          (.processedFrame fid dets pt)).toBrowsers =
        browsers.map (fun c =>
          (c, { frame_id := fid.getD 0, detections := dets.getD [],
                timestamp := now, processing_time := pt.getD 0 })) ∧
      (step s (.wslMessage now (.processedFrame fid dets pt))).frameQueue =
        s.frameQueue := by
  intro piPresent browsers pf now fid dets pt s
  exact ⟨rfl, rfl, rfl⟩

/-- Claim C10: no server operation removes entries from the in-flight frame
queue — every step appends (possibly nothing) — and once the queue is full
while a Worker is connected, both the binary and the JSON frame paths time
out after the 100 ms admission deadline, drop the frame from the pipeline
and send nothing to the Worker. -/
theorem c10_no_queue_removal :
    (∀ (s : ServerState) (e : Event),
        ∃ tl, (step s e).frameQueue = s.frameQueue ++ tl) ∧
    (∀ (q : List QueueEntry) (msg : List Nat) (f : DecodedFrame),
        parsePiBinary msg = some f → frameQueueMaxsize ≤ q.length →
        (handlePiBinary true q msg).queue = q ∧
        (handlePiBinary true q msg).toWorker = none ∧
        (handlePiBinary true q msg).timedOut = true) ∧
    (∀ (q : List QueueEntry) (now : ℚ) (d : JsonFrameData),
        frameQueueMaxsize ≤ q.length →
        (handlePiJsonFrame true q now d).queue = q ∧
        (handlePiJsonFrame true q now d).toWorker = none ∧
        (handlePiJsonFrame true q now d).timedOut = true) := by
  refine ⟨?_, ?_, ?_⟩
  · intro s e
    rcases step_queue_cases s e with h | ⟨_, en, he⟩
    · exact ⟨[], by simp [h]⟩
    · exact ⟨[en], he⟩
  · intro q m f hp hfull
    unfold handlePiBinary
    rw [hp]
    have hd : decide (q.length < frameQueueMaxsize) = false :=
      decide_eq_false (by omega)
    simp [hd]
  · intro q now d hfull
    unfold handlePiJsonFrame
    have hd : decide (q.length < frameQueueMaxsize) = false :=
      decide_eq_false (by omega)
    simp [hd]

theorem c10_witness :
    (handlePiBinary true sampleFullQueue sampleColorFrame).toWorker = none ∧
    (handlePiJsonFrame true sampleFullQueue 0 sampleJsonFrame).toWorker = none := by
  constructor
  · exact (c10_no_queue_removal.2.1 sampleFullQueue sampleColorFrame sampleDecoded
      (by decide) (by decide)).2.1
  · exact (c10_no_queue_removal.2.2 sampleFullQueue 0 sampleJsonFrame
      (by decide)).2.1
